import Mathlib

/-!
Verification development for the OpenELP EchoLink proxy core
(`proxy.c` and `digest.c`).

Bytes are modelled as `Nat` (values < 256 on every concrete input),
byte strings as `List Nat`, and negated POSIX error codes as negative
`Int` return values, exactly as the C source carries them.  External
collaborators (MD5, RNG, regex engine, sockets, threads) are passed in
as explicit parameters: the RNG result is the `nonce` argument, the MD5
collaborator is a function argument `md5`, a compiled regex is a
function from the matched string to `regex_is_match`'s `Int` result,
and the client socket is a list of incoming bytes plus a log of sent
messages.  `conn_send` is modelled as succeeding and `conn_recv` as
delivering exactly the requested bytes when the input holds them and
failing with `-ECONNRESET` otherwise.
-/

/-- POSIX `EACCES` (13). -/
def EACCES : Int := 13

/-- POSIX `EBUSY` (16). -/
def EBUSY : Int := 16

/-- POSIX `EINVAL` (22). -/
def EINVAL : Int := 22

/-- POSIX `ECONNRESET` (104). -/
def ECONNRESET : Int := 104

/-- `DIGEST_LEN` and `PROXY_PASS_RES_LEN` from the headers: both 16,
as asserted by the preprocessor check at the top of `proxy.c`. -/
def DIGEST_LEN : Nat := 16

/-- ASCII code of one lowercase hexadecimal digit. -/
def hex_digit (d : Nat) : Nat :=
  if d < 10 then 48 + d else 87 + d

/-- Modelled from the spec: `digest_to_hex32` is declared in
`digest.h` but its body is not among the given sources.  The spec says
the 32-bit nonce is formatted as exactly 8 lowercase hexadecimal
characters (most significant nibble first, as in the test vector
`0x12345678 ↦ "12345678"`). -/
def digest_to_hex32 (n : Nat) : List Nat :=
  (List.range 8).map (fun i => hex_digit (n / 16 ^ (7 - i) % 16))

/-- The case fold applied by `get_password_response` to one password
byte: ASCII `a`..`z` (97..122) is shifted to uppercase, every other
byte is copied unchanged (`proxy.c` lines 903-911). -/
def upper_byte (b : Nat) : Nat :=
  if 97 ≤ b ∧ b ≤ 122 then b - 32 else b

/-- The copy loop of `get_password_response`: it walks the password up
to its NUL terminator, case folding each byte.  The end of the list is
the terminator; an embedded 0 byte also stops the loop, as it does in
C. -/
def copy_upper : List Nat → List Nat
  | [] => []
  | b :: rest => if b = 0 then [] else upper_byte b :: copy_upper rest

/-- `get_password_response` (`proxy.c` lines 896-920): build the
case-folded password followed by the 8 hex characters of the nonce and
hand the buffer to `digest_get`, which returns the MD5 collaborator's
digest of it (`digest.c` lines 44-53). -/
def get_password_response (md5 : List Nat → List Nat) (nonce : Nat)
    (password : List Nat) : List Nat :=
  md5 (copy_upper password ++ digest_to_hex32 nonce)

/-- The two compiled callsign patterns held by `proxy_priv`
(`re_calls_denied`, `re_calls_allowed`).  `none` is a NULL handle; a
compiled regex is modelled by the `Int` result `regex_is_match` gives
for each callsign: 1 match, 0 no match, negative an engine error. -/
structure AuthCfg where
  re_calls_denied : Option (List Nat → Int)
  re_calls_allowed : Option (List Nat → Int)

/-- The second block of `proxy_authorize_callsign` (`proxy.c` lines
415-425): when an allow pattern exists, any `regex_is_match` result
other than 1 (no match, or an engine error) returns 0. -/
def authorize_allowed_part (cfg : AuthCfg) (callsign : List Nat) : Int :=
  match cfg.re_calls_allowed with
  | some m => if m callsign ≠ 1 then 0 else 1
  | none => 1

/-- `proxy_authorize_callsign` (`proxy.c` lines 397-428): when a deny
pattern exists, any `regex_is_match` result other than 0 (a match, or
an engine error) returns 0; otherwise the allow pattern is consulted. -/
def proxy_authorize_callsign (cfg : AuthCfg) (callsign : List Nat) : Int :=
  match cfg.re_calls_denied with
  | some m => if m callsign ≠ 0 then 0 else authorize_allowed_part cfg callsign
  | none => authorize_allowed_part cfg callsign

/-- The authorization formula exactly as claim C3 and the spec state
it: the deny side passes when the deny regex is absent or does not
match, an engine failure counting as no-match for both patterns. -/
def claim_authorize_formula (cfg : AuthCfg) (callsign : List Nat) : Prop :=
  (∀ m ∈ cfg.re_calls_denied, ¬ m callsign = 1) ∧
  (∀ m ∈ cfg.re_calls_allowed, m callsign = 1)

/-- A regex handle whose engine always fails (`regex_is_match`
returning a negative ERRNO value). -/
def regex_err_stub : List Nat → Int := fun _ => -5

/-- The fixed SYSTEM frame sent on a bad password (`msg_bad_pw`,
`proxy.c` lines 202-204). -/
def msg_bad_pw : List Nat := [7, 0, 0, 0, 0, 1, 0, 0, 0, 1]

/-- The fixed SYSTEM frame sent on an unauthorized callsign
(`msg_bad_auth`, `proxy.c` lines 205-207). -/
def msg_bad_auth : List Nat := [7, 0, 0, 0, 0, 1, 0, 0, 0, 2]

/-- The newline scan of `proxy_worker_authorize` (`proxy.c` line 235):
starting at index `i` with `fuel` iterations left (the loop bound 11
supplies the fuel), stop at the first byte equal to `'\n'` (10). -/
def scan_nl (buff : List Nat) : Nat → Nat → Nat
  | i, 0 => i
  | i, fuel + 1 => if buff.getD i 0 = 10 then i else scan_nl buff (i + 1) fuel

/-- `for (idx = 0; idx < 11 && buff[idx] != '\n'; idx++);` -/
def scan_newline (buff : List Nat) : Nat :=
  scan_nl buff 0 11

/-- The effect of `strcpy(pw->callsign, (char *)buff)`: bytes are
copied up to (not including) the first NUL. -/
def strcpy_bytes (l : List Nat) : List Nat :=
  l.takeWhile (fun b => b ≠ 0)

/-- The response comparison loop of `proxy_worker_authorize`
(`proxy.c` lines 248-258): compare `response[j]` with `buff[base + j]`
for `j = 0..15`, succeeding only if every byte agrees. -/
def digest_cmp_ok (response buff : List Nat) (base : Nat) : Bool :=
  (List.range DIGEST_LEN).all (fun j => response.getD j 0 == buff.getD (base + j) 0)

/-- Observable outcome of one run of `proxy_worker_authorize`: its
return value, every message passed to `conn_send` in order, the bytes
stored into `pw->callsign` (when the `strcpy` is reached), and the
size of each successful `conn_recv` in order. -/
structure AuthOutcome where
  ret : Int
  sent : List (List Nat)
  callsign : Option (List Nat)
  reads : List Nat
deriving DecidableEq, Repr

/-- `proxy_worker_authorize` (`proxy.c` lines 193-272), run over the
byte stream `input` arriving from the client.  The RNG collaborator's
draw is the `nonce` parameter and `conn_send` always succeeds; a
`conn_recv` that cannot be filled from `input` fails with
`-ECONNRESET` (a transport error, its exact code irrelevant to the
claims).  Steps, in source order: format the nonce, compute the
expected response, send the 8 nonce characters, receive 16 bytes, scan
the first 11 of them for a newline (protocol error if none), record
the NUL-terminated callsign, receive `idx + 1` further bytes, compare
the 16 response bytes against `buff[idx+1..idx+16]` (bad-password
frame and `-EACCES` on mismatch), and finally check the callsign
against the allow/deny patterns (bad-auth frame and `-EACCES` on
denial). -/
def proxy_worker_authorize (md5 : List Nat → List Nat) (cfg : AuthCfg)
    (password : List Nat) (nonce : Nat) (input : List Nat) : AuthOutcome :=
  let nonce_str := digest_to_hex32 nonce
  let response := get_password_response md5 nonce password
  if input.length < 16 then
    { ret := -ECONNRESET, sent := [nonce_str], callsign := none, reads := [] }
  else
    let first16 := input.take 16
    let idx := scan_newline first16
    if 11 ≤ idx then
      { ret := -EINVAL, sent := [nonce_str], callsign := none, reads := [16] }
    else
      let callsign := strcpy_bytes (first16.take idx)
      if input.length < 16 + (idx + 1) then
        { ret := -ECONNRESET, sent := [nonce_str], callsign := some callsign,
          reads := [16] }
      else
        let buff := first16.set idx 0 ++ (input.drop 16).take (idx + 1)
        if digest_cmp_ok response buff (idx + 1) then
          if proxy_authorize_callsign cfg callsign = 1 then
            { ret := 0, sent := [nonce_str], callsign := some callsign,
              reads := [16, idx + 1] }
          else
            { ret := -EACCES, sent := [nonce_str, msg_bad_auth],
              callsign := some callsign, reads := [16, idx + 1] }
        else
          { ret := -EACCES, sent := [nonce_str, msg_bad_pw],
            callsign := some callsign, reads := [16, idx + 1] }

/-- The failure handling of `proxy_worker_func` after
`proxy_worker_authorize` returns (`proxy.c` lines 307-330): on a
negative result the client connection is freed and `conn_client` is
reset to NULL under the worker's mutex, returning the worker to idle.
The result pairs the new `conn_client` value with whether the client
socket was freed. -/
def proxy_worker_handle_auth (conn_client : Option Nat) (auth_ret : Int) :
    Option Nat × Bool :=
  if auth_ret < 0 then (none, true) else (conn_client, false)

/-- The 16 bytes at offsets `k+1..k+16` of the client's reply, which
claim C2 says are the ones compared with the expected digest. -/
def auth_reply_digest (input : List Nat) (k : Nat) : List Nat :=
  (input.drop (k + 1)).take 16

/-- `proxy_worker_accept` (`proxy.c` lines 170-191), the body executed
under the worker's mutex.  `conn_client` is the worker's stored client
connection (a NULL or a connection handle, handles modelled as `Nat`),
`conn_new` the connection being handed over, and `wake_ret` the result
`worker_wake` would return (0 on success, a negative ERRNO value on
failure).  The result pairs the function's return value with the new
`conn_client` field: busy workers are left untouched with `-EBUSY`,
otherwise the connection is stored and, when the wake fails, reset to
NULL. -/
def proxy_worker_accept (conn_client : Option Nat) (conn_new : Nat)
    (wake_ret : Int) : Int × Option Nat :=
  match conn_client with
  | some c => (-EBUSY, some c)
  | none => if wake_ret < 0 then (wake_ret, none) else (wake_ret, some conn_new)

/-- The worker probe loop of `proxy_process` (`proxy.c` lines
865-871): `workers i` is the value `proxy_worker_accept` returns for
worker `i`, `i` the loop counter, the second argument the remaining
iterations (`usable_clients - i`), and the last argument the running
value of `ret`.  The loop stops at the first result other than
`-EBUSY`. -/
def proxy_process_probe (workers : Nat → Int) : Nat → Nat → Int → Int
  | _, 0, ret => ret
  | i, n + 1, _ =>
    if workers i = -EBUSY then proxy_process_probe workers (i + 1) n (-EBUSY)
    else workers i

/-- What `proxy_process` does with the accepted connection after the
probe loop: its return value, whether the connection was closed and
freed (the `conn_process_exit` path), and whether the
no-available-slots INFO message was logged. -/
structure ProcessResult where
  ret : Int
  conn_closed : Bool
  logged_no_slots : Bool
deriving DecidableEq, Repr

/-- `proxy_process` (`proxy.c` lines 835-889) from the point where
`conn_accept` has returned 0 for a new connection (allocation,
`conn_init` and `conn_accept` are collaborators, modelled as
succeeding; their failure paths return before the probe loop and are
not what the claims are about).  `ret` holds 0 from `conn_accept` when
the probe loop starts; after the loop, `-EBUSY` logs INFO and closes
the connection returning 0, any other negative value closes the
connection and propagates, and a non-negative value returns 0 with the
connection left with the worker. -/
def proxy_process (workers : Nat → Int) (usable_clients : Nat) : ProcessResult :=
  let r := proxy_process_probe workers 0 usable_clients 0
  if r = -EBUSY then { ret := 0, conn_closed := true, logged_no_slots := true }
  else if r < 0 then { ret := r, conn_closed := true, logged_no_slots := false }
  else { ret := 0, conn_closed := false, logged_no_slots := false }

/-- The configuration fields of `proxy_conf` that the core reads in
`proxy_load_conf` and `proxy_open`.  A NULL string pointer is `none`;
`bind_addr_ext_add` is NULL or an array of `bind_addr_ext_add_len`
strings. -/
structure proxy_conf where
  bind_addr : Option String
  bind_addr_ext : Option String
  bind_addr_ext_add : Option (List String)
  calls_allowed : Option String
  calls_denied : Option String
deriving DecidableEq, Repr

/-- The additional external bind addresses, empty for a NULL array. -/
def proxy_conf_adds (conf : proxy_conf) : List String :=
  conf.bind_addr_ext_add.getD []

/-- The validation in `proxy_load_conf` (`proxy.c` lines 430-451) with
the `conf_parse_file` collaborator modelled as succeeding with the
given configuration: if `bind_addr_ext_add` is non-NULL while
`bind_addr_ext` is NULL or the wildcard `"0.0.0.0"`, the configuration
is rejected with `-EINVAL`; otherwise 0 is returned. -/
def proxy_load_conf (conf : proxy_conf) : Int :=
  match conf.bind_addr_ext_add with
  | none => 0
  | some _ =>
    match conf.bind_addr_ext with
    | none => -EINVAL
    | some a => if a = "0.0.0.0" then -EINVAL else 0

/-- The slot state established by a successful `proxy_open`: the
number of client slots and each slot's `source_addr`. -/
structure proxy_open_state where
  num_clients : Nat
  slot_source_addrs : List (Option String)
deriving DecidableEq, Repr

/-- The slot construction of `proxy_open` (`proxy.c` lines 554-706)
with all collaborators (allocation, log, regex compilation, listen)
succeeding: `num_clients = 1 + bind_addr_ext_add_len` slots are
created (line 560); slot 0's `source_addr` is `bind_addr_ext` and slot
`i`'s (for `1 ≤ i`) is `bind_addr_ext_add[i - 1]` (lines 650-653).  No
check relates the addresses to each other. -/
def proxy_open (conf : proxy_conf) : proxy_open_state :=
  let n := 1 + (proxy_conf_adds conf).length
  { num_clients := n,
    slot_source_addrs := (List.range n).map (fun i =>
      if i = 0 then conf.bind_addr_ext
      else some ((proxy_conf_adds conf).getD (i - 1) "")) }

/-- Loading a configuration and then opening the proxy with it, the
order the host follows: a failed `proxy_load_conf` stops before
`proxy_open` runs. -/
def proxy_load_and_open (conf : proxy_conf) : Except Int proxy_open_state :=
  if proxy_load_conf conf < 0 then Except.error (proxy_load_conf conf)
  else Except.ok (proxy_open conf)

/-- A configuration whose additional external bind address repeats
`bind_addr_ext`. -/
def conf_dup_ext : proxy_conf :=
  { bind_addr := none, bind_addr_ext := some "1.2.3.4",
    bind_addr_ext_add := some ["1.2.3.4"],
    calls_allowed := none, calls_denied := none }

/-- Lifecycle phases of a proxy instance, as reached through the API
`proxy_init` → `proxy_open` → `proxy_start` → `proxy_shutdown` /
`proxy_close`.  `inited` covers a freshly initialized (or closed)
instance, `opened` an instance whose slots exist but whose start was
not yet attempted, `startFailed` an instance whose `proxy_start`
returned an error. -/
inductive LifePhase where
  | inited
  | opened
  | started
  | startFailed
  | shutdownDone
deriving DecidableEq, Repr

/-- The lifecycle state the usable-clients claims are about:
`proxy_priv.usable_clients`, `proxy_priv.num_clients`, and the phase. -/
structure LifeState where
  usable_clients : Nat
  num_clients : Nat
  phase : LifePhase
deriving DecidableEq, Repr

/-- State after `proxy_init` (`proxy.c` lines 460-512): the private
struct is zeroed by `memset`, so both counters are 0. -/
def life_init : LifeState := ⟨0, 0, LifePhase.inited⟩

/-- The proxy lifecycle transitions, each faithful to what the
corresponding function writes to the two counters:
`proxy_open` sets `num_clients = 1 + bind_addr_ext_add_len` on success
(line 560) and resets it to 0 on failure (line 731), touching
`usable_clients` in neither case; `proxy_start` sets
`usable_clients = num_clients` after starting the workers (lines
948-950) — a failure before that point leaves it unchanged, a failure
of the registration service afterwards leaves it equal to
`num_clients`; `proxy_shutdown` sets `usable_clients = 0` (lines
792-794); `proxy_close` runs `proxy_shutdown` and frees the slot
arrays, resetting `num_clients` to 0 (lines 736-773). -/
inductive life_step : LifeState → LifeState → Prop where
  | open_ok (s : LifeState) (K : Nat) : s.phase = LifePhase.inited →
      life_step s ⟨s.usable_clients, 1 + K, LifePhase.opened⟩
  | open_fail (s : LifeState) : s.phase = LifePhase.inited →
      life_step s ⟨s.usable_clients, 0, LifePhase.inited⟩
  | start_ok (s : LifeState) : s.phase = LifePhase.opened →
      life_step s ⟨s.num_clients, s.num_clients, LifePhase.started⟩
  | start_fail_early (s : LifeState) : s.phase = LifePhase.opened →
      life_step s ⟨s.usable_clients, s.num_clients, LifePhase.startFailed⟩
  | start_fail_late (s : LifeState) : s.phase = LifePhase.opened →
      life_step s ⟨s.num_clients, s.num_clients, LifePhase.startFailed⟩
  | shutdown (s : LifeState) :
      life_step s ⟨0, s.num_clients, LifePhase.shutdownDone⟩
  | close (s : LifeState) :
      life_step s ⟨0, 0, LifePhase.inited⟩

/-- States reachable from a freshly initialized proxy. -/
inductive life_reachable : LifeState → Prop where
  | init : life_reachable life_init
  | step {s t : LifeState} : life_reachable s → life_step s t →
      life_reachable t

/-- A configuration with one additional external bind address distinct
from `bind_addr_ext`. -/
def conf_two_ext : proxy_conf :=
  { bind_addr := none, bind_addr_ext := some "1.2.3.4",
    bind_addr_ext_add := some ["5.6.7.8"],
    calls_allowed := none, calls_denied := none }

/-- A configuration that uses additional external bind addresses while
leaving `bind_addr_ext` unset. -/
def conf_add_without_ext : proxy_conf :=
  { bind_addr := none, bind_addr_ext := none,
    bind_addr_ext_add := some ["9.9.9.9"],
    calls_allowed := none, calls_denied := none }

theorem copy_upper_eq_map (P : List Nat) (h : 0 ∉ P) :
    copy_upper P = P.map upper_byte := by
  induction P with
  | nil => rfl
  | cons b rest ih =>
    have hb : b ≠ 0 := fun hb => h (by simp [hb])
    have hrest : 0 ∉ rest := fun hr => h (List.mem_cons_of_mem b hr)
    simp [copy_upper, hb, ih hrest]

theorem digest_to_hex32_length (n : Nat) : (digest_to_hex32 n).length = 8 := by
  simp [digest_to_hex32]

theorem scan_nl_found (buff : List Nat) :
    ∀ (fuel i k : Nat), i ≤ k → k < i + fuel → buff.getD k 0 = 10 →
      (∀ j, i ≤ j → j < k → buff.getD j 0 ≠ 10) → scan_nl buff i fuel = k := by
  intro fuel
  induction fuel with
  | zero => intro i k hik hk _ _; omega
  | succ m ih =>
    intro i k hik hk hnl hbefore
    by_cases hi : buff.getD i 0 = 10
    · have : i = k := by
        by_contra hne
        exact hbefore i (le_refl i) (by omega) hi
      subst this
      simp only [scan_nl, if_pos hi]
    · have hik' : i ≠ k := fun he => hi (he ▸ hnl)
      simp only [scan_nl, if_neg hi]
      exact ih (i + 1) k (by omega) (by omega) hnl
        (fun j hj1 hj2 => hbefore j (by omega) hj2)

theorem scan_nl_none (buff : List Nat) :
    ∀ (fuel i : Nat), (∀ j, i ≤ j → j < i + fuel → buff.getD j 0 ≠ 10) →
      scan_nl buff i fuel = i + fuel := by
  intro fuel
  induction fuel with
  | zero => intro i _; rfl
  | succ m ih =>
    intro i hno
    have hi : buff.getD i 0 ≠ 10 := hno i (le_refl i) (by omega)
    simp only [scan_nl, if_neg hi]
    have := ih (i + 1) (fun j hj1 hj2 => hno j (by omega) (by omega))
    omega

theorem list_eq_of_getD {a b : List Nat} {n : Nat} (ha : a.length = n)
    (hb : b.length = n) (h : ∀ j, j < n → a.getD j 0 = b.getD j 0) : a = b := by
  apply List.ext_getElem?
  intro i
  by_cases hi : i < n
  · have h1 : i < a.length := by omega
    have h2 : i < b.length := by omega
    have hv := h i hi
    rw [List.getD_eq_getElem?_getD, List.getD_eq_getElem?_getD,
      List.getElem?_eq_getElem h1, List.getElem?_eq_getElem h2] at hv
    rw [List.getElem?_eq_getElem h1, List.getElem?_eq_getElem h2]
    simpa using hv
  · rw [List.getElem?_eq_none (by omega), List.getElem?_eq_none (by omega)]

theorem proxy_worker_authorize_unfold (md5 : List Nat → List Nat) (cfg : AuthCfg)
    (password : List Nat) (nonce : Nat) (input : List Nat) (k : Nat)
    (hmd5 : ∀ bs, (md5 bs).length = 16)
    (hk : k ≤ 10) (hnl : input.getD k 0 = 10)
    (hbefore : ∀ i, i < k → input.getD i 0 ≠ 10)
    (hlen : 17 + k ≤ input.length) :
    proxy_worker_authorize md5 cfg password nonce input =
      if auth_reply_digest input k = get_password_response md5 nonce password then
        if proxy_authorize_callsign cfg (strcpy_bytes (input.take k)) = 1 then
          { ret := 0, sent := [digest_to_hex32 nonce],
            callsign := some (strcpy_bytes (input.take k)), reads := [16, k + 1] }
        else
          { ret := -EACCES, sent := [digest_to_hex32 nonce, msg_bad_auth],
            callsign := some (strcpy_bytes (input.take k)), reads := [16, k + 1] }
      else
        { ret := -EACCES, sent := [digest_to_hex32 nonce, msg_bad_pw],
          callsign := some (strcpy_bytes (input.take k)), reads := [16, k + 1] } := by
  have hnotlt : ¬ input.length < 16 := by omega
  have htake : ∀ i, i < 16 → (input.take 16).getD i 0 = input.getD i 0 := by
    intro i hi
    rw [List.getD_eq_getElem?_getD, List.getD_eq_getElem?_getD,
      List.getElem?_take_of_lt hi]
  have hscan : scan_newline (input.take 16) = k := by
    apply scan_nl_found (input.take 16) 11 0 k (Nat.zero_le k) (by omega)
    · rw [htake k (by omega)]; exact hnl
    · intro j _ hj
      rw [htake j (by omega)]
      exact hbefore j hj
  have h11 : ¬ 11 ≤ k := by omega
  have hnotlt2 : ¬ input.length < 16 + (k + 1) := by omega
  have hcs : (input.take 16).take k = input.take k := by
    rw [List.take_take, Nat.min_eq_left (by omega : k ≤ 16)]
  have hlenA : ((input.take 16).set k 0).length = 16 := by
    rw [List.length_set, List.length_take, Nat.min_eq_left (by omega : 16 ≤ input.length)]
  have hbuff : ∀ j, j < 16 →
      (((input.take 16).set k 0 ++ (input.drop 16).take (k + 1)).getD (k + 1 + j) 0) =
        input.getD (k + 1 + j) 0 := by
    intro j hj
    rw [List.getD_eq_getElem?_getD, List.getD_eq_getElem?_getD]
    by_cases hlt : k + 1 + j < 16
    · rw [List.getElem?_append_left (by omega : k + 1 + j < ((input.take 16).set k 0).length),
        List.getElem?_set_ne (by omega : k ≠ k + 1 + j),
        List.getElem?_take_of_lt hlt]
    · have hidx : k + 1 + j = 16 + (k + 1 + j - 16) := by omega
      have hge : ((input.take 16).set k 0).length ≤ k + 1 + j := by
        rw [hlenA]; omega
      rw [List.getElem?_append_right hge,
        hlenA, List.getElem?_take_of_lt (by omega : k + 1 + j - 16 < k + 1),
        List.getElem?_drop, ← hidx]
  have hSlen : (auth_reply_digest input k).length = 16 := by
    simp only [auth_reply_digest, List.length_take, List.length_drop]
    omega
  have hS : ∀ j, j < 16 →
      (auth_reply_digest input k).getD j 0 = input.getD (k + 1 + j) 0 := by
    intro j hj
    rw [auth_reply_digest, List.getD_eq_getElem?_getD, List.getD_eq_getElem?_getD,
      List.getElem?_take_of_lt hj, List.getElem?_drop]
  have hRlen : (get_password_response md5 nonce password).length = 16 := hmd5 _
  have hcmp : (digest_cmp_ok (get_password_response md5 nonce password)
        ((input.take 16).set k 0 ++ (input.drop 16).take (k + 1)) (k + 1) = true) ↔
      auth_reply_digest input k = get_password_response md5 nonce password := by
    rw [digest_cmp_ok, List.all_eq_true]
    constructor
    · intro h
      apply list_eq_of_getD hSlen hRlen
      intro j hj
      have := h j (List.mem_range.mpr hj)
      rw [beq_iff_eq] at this
      rw [hS j hj, ← hbuff j hj, this]
    · intro h j hjm
      have hj : j < 16 := List.mem_range.mp hjm
      rw [beq_iff_eq, hbuff j hj, ← hS j hj, h]
  simp only [proxy_worker_authorize, scan_newline, if_neg hnotlt]
  rw [show scan_nl (input.take 16) 0 11 = k from hscan]
  simp only [if_neg h11, if_neg hnotlt2, hcs]
  by_cases hd : auth_reply_digest input k = get_password_response md5 nonce password
  · rw [if_pos (hcmp.mpr hd), if_pos hd]
  · rw [if_neg (fun hb => hd (hcmp.mp hb)), if_neg hd]

/-- C1: for every password string P (a C string, hence without NUL
bytes) and every 32-bit nonce N, `get_password_response` returns the
MD5 digest of the byte string obtained by mapping each byte of P in
0x61..0x7A to its uppercase form and leaving every other byte
unchanged, followed by the 8 lowercase hex characters of N; in
particular P = "test", N = 0x12345678 yields MD5("TEST12345678"). -/
theorem get_password_response_correct (md5 : List Nat → List Nat) :
    (∀ (P : List Nat) (N : Nat), 0 ∉ P → N < 2 ^ 32 →
      get_password_response md5 N P =
        md5 (P.map upper_byte ++ digest_to_hex32 N)) ∧
    get_password_response md5 0x12345678 [116, 101, 115, 116] =
      md5 [84, 69, 83, 84, 49, 50, 51, 52, 53, 54, 55, 56] := by
  constructor
  · intro P N hP _
    rw [get_password_response, copy_upper_eq_map P hP]
  · rfl

/-- Witness for `get_password_response_correct`, instantiated with the
identity in place of the MD5 collaborator at P = "test",
N = 0x12345678. -/
theorem get_password_response_correct_witness :
    (0 : Nat) ∉ ([116, 101, 115, 116] : List Nat) ∧
    (0x12345678 : Nat) < 2 ^ 32 ∧
    get_password_response (fun bs => bs) 0x12345678 [116, 101, 115, 116] =
      (fun bs => bs)
        (([116, 101, 115, 116] : List Nat).map upper_byte ++ digest_to_hex32 0x12345678) :=
  ⟨by decide, by decide,
    (get_password_response_correct (fun bs => bs)).1 [116, 101, 115, 116]
      0x12345678 (by decide) (by decide)⟩

/-- C3 counterexample: with a deny pattern present whose engine fails
(`regex_is_match` returning -5) and no allow pattern, the claim's
formula — which treats an engine failure as no-match for the deny
pattern — authorizes the callsign, but `proxy_authorize_callsign`
returns 0: an engine failure on the deny side denies the callsign. -/
theorem proxy_authorize_callsign_claim_false :
    claim_authorize_formula ⟨some regex_err_stub, none⟩ [87] ∧
    proxy_authorize_callsign ⟨some regex_err_stub, none⟩ [87] = 0 := by
  refine ⟨⟨?_, ?_⟩, rfl⟩
  · intro m hm
    rw [Option.mem_def] at hm
    cases hm
    decide
  · intro m hm
    simp at hm

/-- C3 amended: `proxy_authorize_callsign` returns 1 iff (the deny
regex is absent OR `regex_is_match` returns exactly 0 for it) AND (the
allow regex is absent OR `regex_is_match` returns exactly 1 for it):
an engine failure is treated as a match for the deny pattern and as a
no-match for the allow pattern, i.e. fail-closed on both sides. -/
theorem proxy_authorize_callsign_iff (cfg : AuthCfg) (c : List Nat) :
    proxy_authorize_callsign cfg c = 1 ↔
      (∀ m ∈ cfg.re_calls_denied, m c = 0) ∧
      (∀ m ∈ cfg.re_calls_allowed, m c = 1) := by
  rcases cfg with ⟨d, a⟩
  cases d with
  | none =>
    cases a with
    | none => simp [proxy_authorize_callsign, authorize_allowed_part]
    | some ma =>
      by_cases h : ma c = 1 <;>
        simp [proxy_authorize_callsign, authorize_allowed_part, h]
  | some md =>
    by_cases hd : md c = 0
    · cases a with
      | none => simp [proxy_authorize_callsign, authorize_allowed_part, hd]
      | some ma =>
        by_cases h : ma c = 1 <;>
          simp [proxy_authorize_callsign, authorize_allowed_part, hd, h]
    · cases a with
      | none => simp [proxy_authorize_callsign, authorize_allowed_part, hd]
      | some ma => simp [proxy_authorize_callsign, authorize_allowed_part, hd]

/-- C2: after the nonce is sent, for every client reply whose callsign
has length k (k ≤ 10, first newline at index k of the first 16 bytes),
the worker reads exactly 16 bytes and then exactly k + 1 additional
bytes — a total of k + 1 + 16 bytes — and the bad-password frame is
sent precisely when the 16 bytes at offsets k+1..k+16 of the received
data differ from the expected digest: those are the bytes compared
byte-for-byte against it. -/
theorem authorize_read_counts (md5 : List Nat → List Nat) (cfg : AuthCfg)
    (password : List Nat) (nonce : Nat) (input : List Nat) (k : Nat)
    (hmd5 : ∀ bs, (md5 bs).length = 16) (hk : k ≤ 10)
    (hnl : input.getD k 0 = 10) (hbefore : ∀ i, i < k → input.getD i 0 ≠ 10)
    (hlen : 17 + k ≤ input.length) :
    (proxy_worker_authorize md5 cfg password nonce input).reads = [16, k + 1] ∧
    (proxy_worker_authorize md5 cfg password nonce input).reads.sum = k + 1 + 16 ∧
    (msg_bad_pw ∈ (proxy_worker_authorize md5 cfg password nonce input).sent ↔
      auth_reply_digest input k ≠ get_password_response md5 nonce password) := by
  rw [proxy_worker_authorize_unfold md5 cfg password nonce input k hmd5 hk hnl
    hbefore hlen]
  have hpw_hex : msg_bad_pw ≠ digest_to_hex32 nonce := by
    intro h
    have hl := digest_to_hex32_length nonce
    rw [← h] at hl
    simp [msg_bad_pw] at hl
  by_cases hd : auth_reply_digest input k = get_password_response md5 nonce password
  · rw [if_pos hd]
    by_cases ha : proxy_authorize_callsign cfg (strcpy_bytes (input.take k)) = 1
    · rw [if_pos ha]
      refine ⟨rfl, by simp; omega, ?_⟩
      simp [hpw_hex, hd]
    · rw [if_neg ha]
      refine ⟨rfl, by simp; omega, ?_⟩
      have hpw_auth : msg_bad_pw ≠ msg_bad_auth := by decide
      simp [hpw_hex, hpw_auth, hd]
  · rw [if_neg hd]
    refine ⟨rfl, by simp; omega, ?_⟩
    simp [hd]

/-- Witness for `authorize_read_counts`: a reply with an empty
callsign (newline at index 0) followed by 17 filler bytes. -/
theorem authorize_read_counts_witness :
    (proxy_worker_authorize (fun _ => List.replicate 16 0) ⟨none, none⟩ [] 0
        ([10] ++ List.replicate 17 65)).reads = [16, 0 + 1] :=
  (authorize_read_counts (fun _ => List.replicate 16 0) ⟨none, none⟩ [] 0
      ([10] ++ List.replicate 17 65) 0 (fun _ => rfl) (by decide) (by decide)
      (fun i hi => absurd hi (Nat.not_lt_zero i)) (by decide)).1

/-- C4: when the client's 16 digest bytes differ from the expected
response, the authorizer sends exactly the 10-byte SYSTEM frame
`07 00 00 00 00 01 00 00 00 01` and returns `-EACCES`; when the digest
matches but the callsign is not authorized it sends exactly
`07 00 00 00 00 01 00 00 00 02` and returns `-EACCES`; in both cases
`proxy_worker_func` then frees the client connection and resets
`conn_client` to NULL, returning the worker to idle. -/
theorem authorize_failure_frames (md5 : List Nat → List Nat) (cfg : AuthCfg)
    (password : List Nat) (nonce : Nat) (input : List Nat) (k : Nat) (c : Nat)
    (hmd5 : ∀ bs, (md5 bs).length = 16) (hk : k ≤ 10)
    (hnl : input.getD k 0 = 10) (hbefore : ∀ i, i < k → input.getD i 0 ≠ 10)
    (hlen : 17 + k ≤ input.length) :
    (auth_reply_digest input k ≠ get_password_response md5 nonce password →
      proxy_worker_authorize md5 cfg password nonce input =
        { ret := -EACCES, sent := [digest_to_hex32 nonce, msg_bad_pw],
          callsign := some (strcpy_bytes (input.take k)), reads := [16, k + 1] } ∧
      proxy_worker_handle_auth (some c)
        (proxy_worker_authorize md5 cfg password nonce input).ret = (none, true)) ∧
    (auth_reply_digest input k = get_password_response md5 nonce password →
      proxy_authorize_callsign cfg (strcpy_bytes (input.take k)) ≠ 1 →
      proxy_worker_authorize md5 cfg password nonce input =
        { ret := -EACCES, sent := [digest_to_hex32 nonce, msg_bad_auth],
          callsign := some (strcpy_bytes (input.take k)), reads := [16, k + 1] } ∧
      proxy_worker_handle_auth (some c)
        (proxy_worker_authorize md5 cfg password nonce input).ret = (none, true)) := by
  rw [proxy_worker_authorize_unfold md5 cfg password nonce input k hmd5 hk hnl
    hbefore hlen]
  constructor
  · intro hd
    rw [if_neg hd]
    refine ⟨rfl, ?_⟩
    show proxy_worker_handle_auth (some c) (-EACCES) = (none, true)
    rw [proxy_worker_handle_auth, if_pos (by norm_num [EACCES])]
  · intro hd ha
    rw [if_pos hd, if_neg ha]
    refine ⟨rfl, ?_⟩
    show proxy_worker_handle_auth (some c) (-EACCES) = (none, true)
    rw [proxy_worker_handle_auth, if_pos (by norm_num [EACCES])]

/-- Witness for `authorize_failure_frames`: an empty callsign and a
reply digest of 16 `A` bytes, which differs from the stub MD5's
all-zero expected response, so the bad-password frame is sent. -/
theorem authorize_failure_frames_witness :
    proxy_worker_authorize (fun _ => List.replicate 16 0) ⟨none, none⟩ [] 0
        ([10] ++ List.replicate 17 65) =
      { ret := -EACCES, sent := [digest_to_hex32 0, msg_bad_pw],
        callsign := some (strcpy_bytes (([10] ++ List.replicate 17 65).take 0)),
        reads := [16, 0 + 1] } ∧
    proxy_worker_handle_auth (some 3)
      (proxy_worker_authorize (fun _ => List.replicate 16 0) ⟨none, none⟩ [] 0
        ([10] ++ List.replicate 17 65)).ret = (none, true) :=
  (authorize_failure_frames (fun _ => List.replicate 16 0) ⟨none, none⟩ [] 0
      ([10] ++ List.replicate 17 65) 0 3 (fun _ => rfl) (by decide) (by decide)
      (fun i hi => absurd hi (Nat.not_lt_zero i)) (by decide)).1 (by decide)

/-- C5 counterexample: for the reply whose first two bytes are
`00 0A`, the byte preceding the first newline is `0x00`, but the
recorded callsign is the empty string — `strcpy` stops at the NUL — so
the callsign is not always "the bytes preceding the first newline" as
the claim states. -/
theorem authorize_callsign_claim_false :
    (proxy_worker_authorize (fun _ => List.replicate 16 0) ⟨none, none⟩ [116] 0
        ([0, 10] ++ List.replicate 16 65)).callsign = some [] ∧
    ([0, 10] ++ List.replicate 16 65).take 1 = [0] ∧
    some ([] : List Nat) ≠ some [0] := by
  refine ⟨by decide, by decide, by decide⟩

/-- C5 amended: a reply with no newline among the first 11 bytes fails
with `-EINVAL` having sent only the nonce (no SYSTEM frame);
otherwise, with the first newline at index k ≤ 10, the bytes preceding
that newline — truncated at the first NUL byte, if any — are recorded
as the callsign. -/
theorem authorize_callsign_recording (md5 : List Nat → List Nat) (cfg : AuthCfg)
    (password : List Nat) (nonce : Nat) (input : List Nat) :
    ((∀ i, i < 11 → input.getD i 0 ≠ 10) → 16 ≤ input.length →
      proxy_worker_authorize md5 cfg password nonce input =
        { ret := -EINVAL, sent := [digest_to_hex32 nonce],
          callsign := none, reads := [16] }) ∧
    (∀ k, k ≤ 10 → input.getD k 0 = 10 → (∀ i, i < k → input.getD i 0 ≠ 10) →
      17 + k ≤ input.length →
      (proxy_worker_authorize md5 cfg password nonce input).callsign =
        some (strcpy_bytes (input.take k))) := by
  constructor
  · intro hno h16
    have hnotlt : ¬ input.length < 16 := by omega
    have htake : ∀ i, i < 16 → (input.take 16).getD i 0 = input.getD i 0 := by
      intro i hi
      rw [List.getD_eq_getElem?_getD, List.getD_eq_getElem?_getD,
        List.getElem?_take_of_lt hi]
    have hscan : scan_nl (input.take 16) 0 11 = 11 := by
      have h := scan_nl_none (input.take 16) 11 0 (fun j hj1 hj2 => by
        rw [htake j (by omega)]
        exact hno j (by omega))
      simpa using h
    simp only [proxy_worker_authorize, scan_newline, if_neg hnotlt]
    rw [hscan, if_pos (le_refl 11)]
  · intro k hk hnl hbefore hlen
    have hnotlt : ¬ input.length < 16 := by omega
    have htake : ∀ i, i < 16 → (input.take 16).getD i 0 = input.getD i 0 := by
      intro i hi
      rw [List.getD_eq_getElem?_getD, List.getD_eq_getElem?_getD,
        List.getElem?_take_of_lt hi]
    have hscan : scan_nl (input.take 16) 0 11 = k := by
      apply scan_nl_found (input.take 16) 11 0 k (Nat.zero_le k) (by omega)
      · rw [htake k (by omega)]; exact hnl
      · intro j _ hj
        rw [htake j (by omega)]
        exact hbefore j hj
    have h11 : ¬ 11 ≤ k := by omega
    have hnotlt2 : ¬ input.length < 16 + (k + 1) := by omega
    have hcs : (input.take 16).take k = input.take k := by
      rw [List.take_take, Nat.min_eq_left (by omega : k ≤ 16)]
    simp only [proxy_worker_authorize, scan_newline, if_neg hnotlt]
    rw [hscan]
    simp only [if_neg h11, if_neg hnotlt2, hcs]
    by_cases hc : digest_cmp_ok (get_password_response md5 nonce password)
        ((input.take 16).set k 0 ++ (input.drop 16).take (k + 1)) (k + 1) = true
    · rw [if_pos hc]
      by_cases ha : proxy_authorize_callsign cfg (strcpy_bytes (input.take k)) = 1
      · rw [if_pos ha]
      · rw [if_neg ha]
    · rw [if_neg hc]

/-- Witness for `authorize_callsign_recording`: a reply of 16 `A`
bytes has no newline and is rejected with `-EINVAL`; a reply starting
with a newline records the empty callsign. -/
theorem authorize_callsign_recording_witness :
    proxy_worker_authorize (fun _ => List.replicate 16 0) ⟨none, none⟩ [] 0
        (List.replicate 16 65) =
      { ret := -EINVAL, sent := [digest_to_hex32 0],
        callsign := none, reads := [16] } ∧
    (proxy_worker_authorize (fun _ => List.replicate 16 0) ⟨none, none⟩ [] 0
        ([10] ++ List.replicate 17 65)).callsign =
      some (strcpy_bytes (([10] ++ List.replicate 17 65).take 0)) :=
  ⟨(authorize_callsign_recording (fun _ => List.replicate 16 0) ⟨none, none⟩ [] 0
      (List.replicate 16 65)).1 (by decide) (by decide),
   (authorize_callsign_recording (fun _ => List.replicate 16 0) ⟨none, none⟩ [] 0
      ([10] ++ List.replicate 17 65)).2 0 (by decide) (by decide)
      (fun i hi => absurd hi (Nat.not_lt_zero i)) (by decide)⟩

theorem proxy_process_probe_all_busy (workers : Nat → Int) :
    ∀ (n i : Nat) (r : Int), (∀ j, j < n → workers (i + j) = -EBUSY) →
      proxy_process_probe workers i n r = if n = 0 then r else -EBUSY := by
  intro n
  induction n with
  | zero => intro i r _; rfl
  | succ m ih =>
    intro i r hb
    have h0 : workers i = -EBUSY := by
      have := hb 0 (Nat.succ_pos m)
      simpa using this
    have hrec := ih (i + 1) (-EBUSY) (fun j hj => by
      have := hb (j + 1) (by omega)
      rw [show i + (j + 1) = i + 1 + j by omega] at this
      exact this)
    simp only [proxy_process_probe, h0, if_pos rfl]
    rw [hrec]
    by_cases hm : m = 0 <;> simp [hm]

/-- C6: when `usable_clients ≥ 1` and every probed worker reports
busy, `proxy_process` logs the no-available-slots INFO message, closes
and frees the accepted connection and returns 0 — but when
`usable_clients = 0` no probe occurs, `ret` keeps the 0 that
`conn_accept` returned, and the function returns 0 with the connection
neither logged about, closed nor freed, contradicting the claim's
"including 0" case. -/
theorem proxy_process_all_busy (workers : Nat → Int) :
    (∀ (w : Nat → Int) (usable : Nat), 1 ≤ usable →
      (∀ i, i < usable → w i = -EBUSY) →
      proxy_process w usable =
        { ret := 0, conn_closed := true, logged_no_slots := true }) ∧
    proxy_process workers 0 =
      { ret := 0, conn_closed := false, logged_no_slots := false } := by
  constructor
  · intro w usable h1 hb
    have hp : proxy_process_probe w 0 usable 0 = -EBUSY := by
      have := proxy_process_probe_all_busy w usable 0 0 (fun j hj => by
        simpa using hb j hj)
      rw [this, if_neg (by omega)]
    rw [proxy_process, hp, if_pos rfl]
  · rfl

/-- Witness for `proxy_process_all_busy`: one usable slot whose worker
is busy. -/
theorem proxy_process_all_busy_witness :
    proxy_process (fun _ => -EBUSY) 1 =
      { ret := 0, conn_closed := true, logged_no_slots := true } :=
  (proxy_process_all_busy (fun _ => -EBUSY)).1 (fun _ => -EBUSY) 1 (le_refl 1)
    (fun _ _ => rfl)

/-- C7: for every configuration in which `bind_addr_ext_add` is a
non-empty list while `bind_addr_ext` is unset or the wildcard
`"0.0.0.0"`, `proxy_load_conf` rejects the configuration with
`-EINVAL`, so the load-then-open sequence fails before `proxy_open`
runs. -/
theorem load_conf_ext_add_requires_ext (conf : proxy_conf) (l : List String)
    (hadd : conf.bind_addr_ext_add = some l) (hne : l ≠ [])
    (hext : conf.bind_addr_ext = none ∨ conf.bind_addr_ext = some "0.0.0.0") :
    proxy_load_conf conf = -EINVAL ∧
    proxy_load_and_open conf = Except.error (-EINVAL) := by
  have h1 : proxy_load_conf conf = -EINVAL := by
    rw [proxy_load_conf, hadd]
    rcases hext with h | h <;> rw [h]
    simp
  refine ⟨h1, ?_⟩
  rw [proxy_load_and_open, h1, if_pos (by norm_num [EINVAL])]

/-- Witness for `load_conf_ext_add_requires_ext`: a configuration with
one additional external bind address and no `bind_addr_ext`. -/
theorem load_conf_ext_add_requires_ext_witness :
    proxy_load_conf conf_add_without_ext = -EINVAL ∧
    proxy_load_and_open conf_add_without_ext = Except.error (-EINVAL) :=
  load_conf_ext_add_requires_ext conf_add_without_ext ["9.9.9.9"] rfl
    (by decide) (Or.inl rfl)

theorem map_range_getD_some (L : List String) :
    (List.range L.length).map (fun i => some (L.getD i "")) = L.map some := by
  induction L with
  | nil => rfl
  | cons a t ih =>
    rw [List.length_cons, List.range_succ_eq_map, List.map_cons, List.map_map,
      List.map_cons]
    congr 1

theorem proxy_open_slot_sources (conf : proxy_conf) :
    (proxy_open conf).slot_source_addrs =
      conf.bind_addr_ext :: (proxy_conf_adds conf).map some := by
  rw [proxy_open]
  generalize proxy_conf_adds conf = L
  rw [Nat.add_comm 1 L.length, List.range_succ_eq_map, List.map_cons,
    List.map_map]
  simp only [if_pos rfl]
  congr 1
  rw [← map_range_getD_some L]
  apply List.map_congr_left
  intro i _
  simp

/-- C8 counterexample: `conf_dup_ext` repeats `bind_addr_ext` as the
additional external bind address; it passes `proxy_load_conf`, `open`
builds its 2 slots, and slots 0 and 1 carry the same `source_addr` —
no distinctness is enforced anywhere. -/
theorem proxy_open_duplicate_source_addr :
    proxy_load_conf conf_dup_ext = 0 ∧
    (proxy_open conf_dup_ext).num_clients = 2 ∧
    (proxy_open conf_dup_ext).slot_source_addrs =
      [some "1.2.3.4", some "1.2.3.4"] ∧
    ¬ (proxy_open conf_dup_ext).slot_source_addrs.Nodup := by
  refine ⟨by decide, by decide, by decide, ?_⟩
  intro h
  rw [show (proxy_open conf_dup_ext).slot_source_addrs =
    [some "1.2.3.4", some "1.2.3.4"] by decide] at h
  simp at h

/-- C8 amended: after a successful open of a configuration with K
additional external bind addresses, exactly K + 1 slots exist, slot
0's `source_addr` is `bind_addr_ext` and slot i's (1 ≤ i ≤ K) is
`bind_addr_ext_add[i - 1]`; the slots' `source_addr` values are
pairwise distinct whenever the configured addresses are pairwise
distinct (the code itself enforces no distinctness). -/
theorem proxy_open_slots_spec (conf : proxy_conf) :
    (proxy_open conf).num_clients = 1 + (proxy_conf_adds conf).length ∧
    (proxy_open conf).slot_source_addrs.getD 0 none = conf.bind_addr_ext ∧
    (∀ i, 1 ≤ i → i ≤ (proxy_conf_adds conf).length →
      (proxy_open conf).slot_source_addrs.getD i none =
        some ((proxy_conf_adds conf).getD (i - 1) "")) ∧
    ((conf.bind_addr_ext :: (proxy_conf_adds conf).map some).Nodup →
      (proxy_open conf).slot_source_addrs.Nodup) := by
  refine ⟨rfl, ?_, ?_, ?_⟩
  · rw [proxy_open_slot_sources]
    rfl
  · intro i h1 hi
    rw [proxy_open_slot_sources]
    rcases Nat.exists_eq_add_of_le h1 with ⟨j, hj⟩
    subst hj
    rw [Nat.add_comm 1 j, List.getD_cons_succ,
      List.getD_eq_getElem?_getD, List.getD_eq_getElem?_getD]
    have hjlen : j < (proxy_conf_adds conf).length := by omega
    simp only [Nat.add_sub_cancel]
    rw [List.getElem?_eq_getElem (by simpa using hjlen),
      List.getElem?_eq_getElem hjlen]
    simp
  · intro h
    rw [proxy_open_slot_sources]
    exact h

/-- Witness for `proxy_open_slots_spec`: a configuration with one
additional external bind address distinct from `bind_addr_ext` gives
two slots with distinct `source_addr` values. -/
theorem proxy_open_slots_spec_witness :
    (proxy_open conf_two_ext).slot_source_addrs.getD 1 none =
      some ((proxy_conf_adds conf_two_ext).getD 0 "") ∧
    (proxy_open conf_two_ext).slot_source_addrs.Nodup :=
  ⟨(proxy_open_slots_spec conf_two_ext).2.2.1 1 (le_refl 1) (by decide),
   (proxy_open_slots_spec conf_two_ext).2.2.2 (by decide)⟩

theorem life_inv (s : LifeState) (h : life_reachable s) :
    s.usable_clients ≤ s.num_clients ∧
    ((s.phase = LifePhase.inited ∨ s.phase = LifePhase.opened) →
      s.usable_clients = 0) := by
  induction h with
  | init => exact ⟨le_refl 0, fun _ => rfl⟩
  | @step u t hr hs ih =>
    cases hs with
    | open_ok K hp =>
      have h0 : u.usable_clients = 0 := ih.2 (Or.inl hp)
      exact ⟨by simp [h0], fun _ => h0⟩
    | open_fail hp =>
      have h0 : u.usable_clients = 0 := ih.2 (Or.inl hp)
      exact ⟨by simp [h0], fun _ => h0⟩
    | start_ok hp =>
      exact ⟨le_refl _, by intro hc; rcases hc with hc | hc <;> simp at hc⟩
    | start_fail_early hp =>
      have h0 : u.usable_clients = 0 := ih.2 (Or.inr hp)
      exact ⟨by simp [h0], by intro hc; rcases hc with hc | hc <;> simp at hc⟩
    | start_fail_late hp =>
      exact ⟨le_refl _, by intro hc; rcases hc with hc | hc <;> simp at hc⟩
    | shutdown =>
      exact ⟨Nat.zero_le _, by intro hc; rcases hc with hc | hc <;> simp at hc⟩
    | close => exact ⟨le_refl 0, fun _ => rfl⟩

/-- C9: `usable_clients` is 0 after init and before any start attempt
(phases `inited` and `opened`), equals `num_clients` immediately after
a successful `proxy_start`, is set to 0 by `proxy_shutdown`, and in
every reachable state never exceeds the number of configured slots
`num_clients`. -/
theorem usable_clients_lifecycle :
    (∀ s : LifeState, life_reachable s →
      s.usable_clients ≤ s.num_clients) ∧
    (∀ s : LifeState, life_reachable s →
      (s.phase = LifePhase.inited ∨ s.phase = LifePhase.opened) →
      s.usable_clients = 0) ∧
    (∀ s t : LifeState, life_step s t → t.phase = LifePhase.started →
      t.usable_clients = t.num_clients) ∧
    (∀ s t : LifeState, life_step s t → t.phase = LifePhase.shutdownDone →
      t.usable_clients = 0) := by
  refine ⟨fun s h => (life_inv s h).1, fun s h => (life_inv s h).2, ?_, ?_⟩
  · intro s t hs hp
    cases hs <;> first | rfl | simp at hp
  · intro s t hs hp
    cases hs <;> first | rfl | simp at hp

/-- Witness for `usable_clients_lifecycle`: the freshly initialized
state and the start/shutdown transitions from a two-slot opened
state. -/
theorem usable_clients_lifecycle_witness :
    life_init.usable_clients ≤ life_init.num_clients ∧
    life_init.usable_clients = 0 ∧
    (⟨2, 2, LifePhase.started⟩ : LifeState).usable_clients =
      (⟨2, 2, LifePhase.started⟩ : LifeState).num_clients ∧
    (⟨0, 2, LifePhase.shutdownDone⟩ : LifeState).usable_clients = 0 :=
  ⟨usable_clients_lifecycle.1 life_init life_reachable.init,
   usable_clients_lifecycle.2.1 life_init life_reachable.init (Or.inl rfl),
   usable_clients_lifecycle.2.2.1 ⟨0, 2, LifePhase.opened⟩ _
     (life_step.start_ok ⟨0, 2, LifePhase.opened⟩ rfl) rfl,
   usable_clients_lifecycle.2.2.2 ⟨2, 2, LifePhase.started⟩ _
     (life_step.shutdown ⟨2, 2, LifePhase.started⟩) rfl⟩

/-- C10: under the worker's mutex, `proxy_worker_accept` returns
`-EBUSY` leaving `conn_client` untouched when a connection is already
stored; otherwise it stores the new connection and returns the wake
result, resetting `conn_client` to NULL (its entry value) when the
wake fails — so `conn_client` ends up holding the new connection iff
the call returns success (0), and on every failure `conn_client` holds
its entry value. -/
theorem proxy_worker_accept_spec (st : Option Nat) (conn_new : Nat)
    (wake_ret : Int) (hwake : wake_ret ≤ 0) (hfresh : st ≠ some conn_new) :
    ((proxy_worker_accept st conn_new wake_ret).1 = 0 ↔
      (proxy_worker_accept st conn_new wake_ret).2 = some conn_new) ∧
    ((proxy_worker_accept st conn_new wake_ret).1 < 0 →
      (proxy_worker_accept st conn_new wake_ret).2 = st) ∧
    (∀ c, st = some c →
      proxy_worker_accept st conn_new wake_ret = (-EBUSY, st)) ∧
    (st = none → (proxy_worker_accept st conn_new wake_ret).1 = wake_ret) := by
  cases st with
  | some c =>
    refine ⟨?_, ?_, ?_, ?_⟩
    · constructor
      · intro h
        exact absurd h (by norm_num [proxy_worker_accept, EBUSY])
      · intro h
        exact absurd h hfresh
    · intro _
      rfl
    · intro d _
      rfl
    · intro h
      cases h
  | none =>
    by_cases hw : wake_ret < 0
    · have h1 : proxy_worker_accept none conn_new wake_ret = (wake_ret, none) := by
        simp [proxy_worker_accept, if_pos hw]
      rw [h1]
      refine ⟨?_, ?_, ?_, ?_⟩
      · constructor
        · intro h
          omega
        · intro h
          cases h
      · intro _
        rfl
      · intro d hd
        cases hd
      · intro _
        rfl
    · have hw0 : wake_ret = 0 := by omega
      subst hw0
      have h1 : proxy_worker_accept none conn_new 0 = (0, some conn_new) := by
        simp [proxy_worker_accept]
      rw [h1]
      refine ⟨?_, ?_, ?_, ?_⟩
      · exact ⟨fun _ => rfl, fun _ => rfl⟩
      · intro h
        omega
      · intro d hd
        cases hd
      · intro _
        rfl

/-- Witness for `proxy_worker_accept_spec`: an idle worker accepting
connection 5 with a successful wake. -/
theorem proxy_worker_accept_spec_witness :
    ((proxy_worker_accept none 5 0).1 = 0 ↔
      (proxy_worker_accept none 5 0).2 = some 5) :=
  (proxy_worker_accept_spec none 5 0 (le_refl 0) (by decide)).1
